import Mathlib

/-
  Verification of the Personal Finance Tracker ledger core
  (src/finance_tracker_app.py).

  Shallow embedding: a pandas DataFrame of transactions becomes a
  `List Transaction`; pandas Timestamps become `Timestamp` (a calendar-day
  index plus a seconds-within-day component, ordered lexicographically);
  float amounts become exact rationals; the Streamlit session state plus
  the CSV file become `AppState`.  The plotting functions are embedded by
  the data series they draw; the early-return-with-warning path on empty
  input is embedded as `Option.none` (the "no data" signal).
-/

namespace FinanceTracker

/-- A point in time: the calendar day (as an integer day index, so that
day arithmetic is exact) together with the seconds elapsed since that
day's midnight.  `pd.to_datetime(d)` of a bare date is midnight of `d`,
i.e. `⟨d, 0⟩`. -/
structure Timestamp where
  day : Int
  sec : Nat
deriving DecidableEq, Repr

/-- Lexicographic order on timestamps, matching chronological order of
`datetime` values. -/
def tsLE (a b : Timestamp) : Prop :=
  a.day < b.day ∨ (a.day = b.day ∧ a.sec ≤ b.sec)

instance (a b : Timestamp) : Decidable (tsLE a b) := by
  unfold tsLE
  infer_instance

instance : IsTotal Timestamp tsLE :=
  ⟨fun a b => by unfold tsLE; omega⟩

instance : IsTrans Timestamp tsLE :=
  ⟨fun a b c h₁ h₂ => by unfold tsLE at *; omega⟩

/-- One row of the in-memory DataFrame after normalisation: columns
`date, description, category, amount, type` of the source.  The Python
identifier `type` is embedded as `ttype` (`type_` and `type` clash with
Lean's universe keyword conventions). -/
structure Transaction where
  date : Timestamp
  description : String
  category : String
  amount : Rat
  ttype : String
deriving DecidableEq, Repr

/-- Order transactions by their `date` column, as `sort_values("date")`
does. -/
def txLE (t u : Transaction) : Prop := tsLE t.date u.date

instance (t u : Transaction) : Decidable (txLE t u) := by
  unfold txLE
  infer_instance

instance : IsTotal Transaction txLE :=
  ⟨fun t u => IsTotal.total (r := tsLE) t.date u.date⟩

instance : IsTrans Transaction txLE :=
  ⟨fun t u v h₁ h₂ => IsTrans.trans (r := tsLE) t.date u.date v.date h₁ h₂⟩

/-- Sum of the `amount` column of a list of transactions
(`df["amount"].sum()`). -/
def sum_amounts (l : List Transaction) : Rat :=
  (l.map (fun t => t.amount)).sum

/-- `df[df["type"] == "income"]`. -/
def income_of (l : List Transaction) : List Transaction :=
  l.filter (fun t => decide (t.ttype = "income"))

/-- `df[df["type"] == "expense"]`. -/
def expenses_of (l : List Transaction) : List Transaction :=
  l.filter (fun t => decide (t.ttype = "expense"))

/-- `df[df["type"] == "savings"]`. -/
def savings_of (l : List Transaction) : List Transaction :=
  l.filter (fun t => decide (t.ttype = "savings"))

/-- `df[df["type"] != "savings"]`. -/
def non_savings_of (l : List Transaction) : List Transaction :=
  l.filter (fun t => !(decide (t.ttype = "savings")))

/-- `pd.to_datetime(d)` of a bare `date` value: midnight of that day. -/
def midnight (d : Int) : Timestamp := ⟨d, 0⟩

/-- The date-filter block of `main` (lines 359-372): with "Show all time"
checked the filtered frame is a copy of the full frame; otherwise
`mask = (df["date"] >= pd.to_datetime(start_date)) & (df["date"] <= pd.to_datetime(end_date))`
compares each row's full timestamp against midnight of the chosen bounds.
`none` embeds the show-all path, `some (start_date, end_date)` the range
path. -/
def filter_transactions (df : List Transaction) (sel : Option (Int × Int)) :
    List Transaction :=
  match sel with
  | none => df
  | some (start_date, end_date) =>
      df.filter (fun t =>
        decide (tsLE (midnight start_date) t.date) &&
        decide (tsLE t.date (midnight end_date)))

/-- `t_type.lower().strip()` from `add_transaction_to_state`. -/
def normalize_type (t_type : String) : String := t_type.toLower.trim

/-- The sign normalisation of `add_transaction_to_state` (lines 224-227):
expenses are stored as `-abs(amount)`, everything else as `abs(amount)`. -/
def signed_amount (amount : Rat) (t_type : String) : Rat :=
  if normalize_type t_type = "expense" then -|amount| else |amount|

/-- The row built by `add_transaction_to_state` (lines 216-235): the
chosen calendar date combined with the wall-clock time of submission
(`now_sec` seconds after midnight), the raw description and category, the
sign-normalised amount and the lower-cased, trimmed type. -/
def mk_transaction (tx_day : Int) (now_sec : Nat) (desc category : String)
    (amount : Rat) (t_type : String) : Transaction :=
  { date := ⟨tx_day, now_sec⟩
    description := desc
    category := category
    amount := signed_amount amount t_type
    ttype := normalize_type t_type }

/-- The session state: the in-memory DataFrame
(`st.session_state.transactions`) and the durable CSV contents
(`transactions.csv`), each as a transaction list. -/
structure AppState where
  transactions : List Transaction
  data_file : List Transaction
deriving DecidableEq, Repr

/-- `add_transaction_to_state` (lines 212-243): build the new row,
concatenate it after the existing rows, store the result in session state
and rewrite the whole CSV file with it (`save_to_csv`).  The
re-coercions `pd.to_datetime` / `pd.to_numeric` on already-typed columns
are identities and are dropped. -/
def add_transaction_to_state (s : AppState) (tx_day : Int) (now_sec : Nat)
    (desc category : String) (amount : Rat) (t_type : String) : AppState :=
  let df := s.transactions ++ [mk_transaction tx_day now_sec desc category amount t_type]
  { transactions := df, data_file := df }

/-- One raw CSV row as `pd.read_csv` sees it: `none` in `date` stands for
a date string `pd.to_datetime(..., errors="coerce")` turns into `NaT`,
`none` in `amount` for a field `pd.to_numeric(..., errors="coerce")`
turns into `NaN`, and `none` in `category`/`rtype` for a missing (NaN)
field.  The `description` column is never cleaned or inspected, so it is
kept as a plain string. -/
structure RawRow where
  date : Option Timestamp
  description : String
  category : Option String
  amount : Option Rat
  rtype : Option String
deriving DecidableEq, Repr

/-- `.astype(str)` on one cell: a missing value (`NaN`) becomes the
literal string `"nan"`; a present string stays itself. -/
def astype_str : Option String → String
  | none => "nan"
  | some s => s

/-- `load_initial_data` (lines 185-204).  `none` embeds an absent file;
`some rows` the parsed CSV body.  An absent or empty file yields the
empty frame.  Otherwise the date column is coerced (`NaT` on failure),
the amount column is coerced (`NaN` on failure), the type column is
string-converted then lower-cased and stripped — so a missing type first
becomes the string `"nan"` — the category column is string-converted and
stripped, and finally `dropna(subset=["date", "amount", "type"])` removes
the rows whose date or amount failed to parse (after `astype(str)` the
type column contains no missing values, so it never triggers a drop). -/
def load_initial_data (file : Option (List RawRow)) : List Transaction :=
  match file with
  | none => []
  | some rows =>
      if rows.isEmpty then []
      else
        rows.filterMap (fun r =>
          match r.date, r.amount with
          | some d, some a =>
              some { date := d
                     description := r.description
                     category := (astype_str r.category).trim
                     amount := a
                     ttype := ((astype_str r.rtype).toLower).trim }
          | _, _ => none)

/-- Running cumulative sum down a list of rows
(`df["amount"].cumsum()` paired with the `date` column), starting from
accumulator `acc`. -/
def cumsum : Rat → List Transaction → List (Timestamp × Rat)
  | _, [] => []
  | acc, t :: ts => (t.date, acc + t.amount) :: cumsum (acc + t.amount) ts

/-- `plot_balance_over_time` (lines 248-260), embedded by the series it
draws: drop savings rows; if nothing is left, warn "No balance data yet."
and return (the `none` signal); otherwise sort by date and plot the
cumulative sum of the amounts against the dates.  The source's
`sort_values("date")` uses pandas' default quicksort, which carries no
tie-order guarantee; the insertion sort here is one representative
date-ascending rearrangement, so only tie-order-independent consequences
of this definition reflect the source. -/
def plot_balance_over_time (df : List Transaction) :
    Option (List (Timestamp × Rat)) :=
  if (non_savings_of df).isEmpty then none
  else some (cumsum 0 (List.insertionSort txLE (non_savings_of df)))

/-- `plot_savings_over_time` (lines 304-314): keep only savings rows;
empty → "No savings data yet." (`none`); otherwise sort by date and plot
the cumulative sum. -/
def plot_savings_over_time (df : List Transaction) :
    Option (List (Timestamp × Rat)) :=
  if (savings_of df).isEmpty then none
  else some (cumsum 0 (List.insertionSort txLE (savings_of df)))

/-- Descending order on `(category, total)` pairs by the total
(`sort_values(ascending=False)` on the grouped sums). -/
def desc_le (a b : String × Rat) : Prop := b.2 ≤ a.2

instance (a b : String × Rat) : Decidable (desc_le a b) := by
  unfold desc_le
  infer_instance

instance : IsTotal (String × Rat) desc_le := ⟨fun a b => le_total b.2 a.2⟩

instance : IsTrans (String × Rat) desc_le := ⟨fun _ _ _ h₁ h₂ => le_trans h₂ h₁⟩

/-- `groupby("category")["amount"].sum()` restricted to one category. -/
def category_sum (exp_df : List Transaction) (c : String) : Rat :=
  sum_amounts (exp_df.filter (fun t => decide (t.category = c)))

/-- `plot_expenses_by_category` (lines 276-286), embedded by the bar data
it draws: keep only expense rows; empty → "No expense data yet."
(`none`); otherwise group by category, sum the amounts per group, take
absolute values and sort descending by total. -/
def plot_expenses_by_category (df : List Transaction) :
    Option (List (String × Rat)) :=
  if (expenses_of df).isEmpty then none
  else
    some (List.insertionSort desc_le
      (((expenses_of df).map (fun t => t.category)).dedup.map
        (fun c => (c, |category_sum (expenses_of df) c|))))

/-- The summary-metric block of `main` (lines 383-389): all four totals
are `0.0` when the filtered frame is empty, else column sums over typed
selections. -/
def total_income (l : List Transaction) : Rat :=
  if l.isEmpty then 0 else sum_amounts (income_of l)

/-- `total_expenses` of `main` line 387: the negated expense sum
(presented as a positive magnitude). -/
def total_expenses (l : List Transaction) : Rat :=
  if l.isEmpty then 0 else -(sum_amounts (expenses_of l))

/-- `total_savings` of `main` line 388. -/
def total_savings (l : List Transaction) : Rat :=
  if l.isEmpty then 0 else sum_amounts (savings_of l)

/-- `current_balance` of `main` line 389: the sum over the non-savings
rows. -/
def current_balance (l : List Transaction) : Rat :=
  if l.isEmpty then 0 else sum_amounts (non_savings_of l)

/-- `current_saved` of `main` line 471: the savings sum of the filtered
frame, or `0.0` when the frame is empty. -/
def current_saved (l : List Transaction) : Rat :=
  if l.isEmpty then 0 else sum_amounts (savings_of l)

/-- The goal-progress formula of `main` line 473:
`0.0 if goal <= 0 else min(current_saved / goal, 1.0)`. -/
def progress (l : List Transaction) (goal : Rat) : Rat :=
  if goal ≤ 0 then 0 else min (current_saved l / goal) 1

/-- The end-to-end sample ledger: a paycheck, a grocery run and an
emergency-fund deposit, entered on three consecutive days (each with a
different entry time-of-day), already normalised. -/
def demo : List Transaction :=
  [⟨⟨2, 5⟩, "Groceries", "Food", -50, "expense"⟩,
   ⟨⟨1, 3⟩, "Paycheck", "Work", 1000, "income"⟩,
   ⟨⟨3, 1⟩, "Emergency fund", "Savings", 200, "savings"⟩]

/-- A sample ledger with expenses in two categories. -/
def demo_expenses : List Transaction :=
  [⟨⟨1, 0⟩, "Groceries", "Food", -50, "expense"⟩,
   ⟨⟨2, 0⟩, "Bus pass", "Transportation", -10, "expense"⟩,
   ⟨⟨3, 0⟩, "More groceries", "Food", -25, "expense"⟩]

end FinanceTracker

namespace FinanceTracker

set_option maxRecDepth 40000

/- ### Helper lemmas -/

theorem sum_amounts_nil : sum_amounts [] = 0 := rfl

theorem sum_amounts_cons (t : Transaction) (l : List Transaction) :
    sum_amounts (t :: l) = t.amount + sum_amounts l := by
  simp [sum_amounts]

theorem sum_amounts_perm {l l' : List Transaction} (h : l.Perm l') :
    sum_amounts l = sum_amounts l' := by
  unfold sum_amounts
  exact (h.map (fun t => t.amount)).sum_eq

theorem sum_amounts_nonpos {l : List Transaction}
    (h : ∀ t ∈ l, t.amount ≤ 0) : sum_amounts l ≤ 0 := by
  induction l with
  | nil => simp [sum_amounts]
  | cons t ts ih =>
      rw [sum_amounts_cons]
      have h₁ := h t (List.mem_cons_self t ts)
      have h₂ := ih (fun u hu => h u (List.mem_cons_of_mem t hu))
      linarith

theorem cumsum_map_fst (acc : Rat) (l : List Transaction) :
    (cumsum acc l).map Prod.fst = l.map (fun t => t.date) := by
  induction l generalizing acc with
  | nil => rfl
  | cons t ts ih => simp [cumsum, ih]

theorem cumsum_length (acc : Rat) (l : List Transaction) :
    (cumsum acc l).length = l.length := by
  induction l generalizing acc with
  | nil => rfl
  | cons t ts ih => simp [cumsum, ih]

theorem cumsum_getLast (acc : Rat) (l : List Transaction) (p : Timestamp × Rat)
    (h : (cumsum acc l).getLast? = some p) : p.2 = acc + sum_amounts l := by
  induction l generalizing acc with
  | nil => simp [cumsum] at h
  | cons t ts ih =>
      cases ts with
      | nil =>
          simp only [cumsum, List.getLast?_singleton, Option.some.injEq] at h
          rw [← h, sum_amounts_cons, sum_amounts_nil]
          ring
      | cons u us =>
          rw [show cumsum acc (t :: u :: us) =
                (t.date, acc + t.amount) :: cumsum (acc + t.amount) (u :: us) from rfl,
              show cumsum (acc + t.amount) (u :: us) =
                (u.date, acc + t.amount + u.amount) :: cumsum (acc + t.amount + u.amount) us
                from rfl,
              List.getLast?_cons_cons] at h
          have := ih (acc + t.amount)
            (by
              rw [show cumsum (acc + t.amount) (u :: us) =
                    (u.date, acc + t.amount + u.amount) ::
                      cumsum (acc + t.amount + u.amount) us from rfl]
              exact h)
          rw [this]
          simp [sum_amounts_cons]
          ring

/-- `sort_values("date")` keeps exactly the rows it was given. -/
theorem sort_perm (l : List Transaction) :
    (List.insertionSort txLE l).Perm l :=
  List.perm_insertionSort txLE l

theorem sorted_sort (l : List Transaction) :
    List.Sorted txLE (List.insertionSort txLE l) :=
  List.sorted_insertionSort txLE l

theorem income_of_cons (t : Transaction) (ts : List Transaction) :
    income_of (t :: ts) =
      if t.ttype = "income" then t :: income_of ts else income_of ts := by
  by_cases h : t.ttype = "income" <;> simp [income_of, List.filter_cons, h]

theorem expenses_of_cons (t : Transaction) (ts : List Transaction) :
    expenses_of (t :: ts) =
      if t.ttype = "expense" then t :: expenses_of ts else expenses_of ts := by
  by_cases h : t.ttype = "expense" <;> simp [expenses_of, List.filter_cons, h]

theorem non_savings_of_cons (t : Transaction) (ts : List Transaction) :
    non_savings_of (t :: ts) =
      if t.ttype = "savings" then non_savings_of ts else t :: non_savings_of ts := by
  by_cases h : t.ttype = "savings" <;> simp [non_savings_of, List.filter_cons, h]

/- ### C1: the date-range filter -/

/-- C1 (counterexample): the claim says a transaction whose timestamp
falls on the `to` calendar date at any time of day is included in the
`[from, to]` filter.  The code compares the full timestamp against
midnight of `to`, so a transaction on day 5 at second 3600 (one hour past
midnight) satisfies `from = 3 ≤ day = 5 ≤ to = 5` yet is filtered out. -/
theorem filter_drops_end_date_afternoon :
    (⟨⟨5, 3600⟩, "Lunch", "Food", 12, "income"⟩ : Transaction).date.day = 5 ∧
    ((3 : Int) ≤ 5 ∧ (5 : Int) ≤ 5) ∧
    filter_transactions [⟨⟨5, 3600⟩, "Lunch", "Food", 12, "income"⟩]
      (some (3, 5)) = [] := by
  with_unfolding_all decide

/-- C1 (amended): with no filter the filtered set is the full set; with a
`[from, to]` filter a transaction is kept iff its timestamp lies between
midnight of `from` and midnight of `to` inclusive — equivalently, its
calendar day is at least `from`, and it is strictly before day `to` or
exactly at midnight of day `to`.  So the `from` end is calendar-date
inclusive, while on the `to` end only the exact-midnight instant of that
date is kept; a transaction dated one day outside either bound is
excluded. -/
theorem filter_transactions_spec (l : List Transaction) (a b : Int)
    (t : Transaction) :
    (t ∈ filter_transactions l (some (a, b)) ↔
      t ∈ l ∧ a ≤ t.date.day ∧
        (t.date.day < b ∨ (t.date.day = b ∧ t.date.sec = 0))) ∧
    filter_transactions l none = l := by
  refine ⟨?_, rfl⟩
  simp only [filter_transactions, List.mem_filter, Bool.and_eq_true,
    decide_eq_true_eq, tsLE, midnight]
  constructor
  · rintro ⟨hm, h₁, h₂⟩
    exact ⟨hm, by simp at h₁ h₂ ⊢; omega⟩
  · rintro ⟨hm, h₁⟩
    exact ⟨hm, by simp at h₁ ⊢; omega⟩

/- ### C2: the sign convention of the normaliser -/

/-- C2: the stored type is the trimmed, lower-cased raw type; the stored
amount is `-|amount|` when that normalised type is `"expense"` and
`+|amount|` otherwise; consequently the stored amount is negative exactly
when the transaction is an expense with non-zero input magnitude — in
particular an input amount of `0` is stored as the non-negative value `0`
whatever the type. -/
theorem sign_convention (tx_day : Int) (now_sec : Nat) (desc category : String)
    (amount : Rat) (t_type : String) :
    (mk_transaction tx_day now_sec desc category amount t_type).ttype =
      normalize_type t_type ∧
    (mk_transaction tx_day now_sec desc category amount t_type).amount =
      (if normalize_type t_type = "expense" then -|amount| else |amount|) ∧
    ((mk_transaction tx_day now_sec desc category amount t_type).amount < 0 ↔
      ((mk_transaction tx_day now_sec desc category amount t_type).ttype =
        "expense" ∧ amount ≠ 0)) := by
  refine ⟨rfl, rfl, ?_⟩
  show signed_amount amount t_type < 0 ↔
    (normalize_type t_type = "expense" ∧ amount ≠ 0)
  unfold signed_amount
  by_cases h : normalize_type t_type = "expense"
  · rw [if_pos h]
    constructor
    · intro hlt
      refine ⟨h, fun h0 => ?_⟩
      rw [h0] at hlt
      norm_num at hlt
    · rintro ⟨-, h0⟩
      have hpos : 0 < |amount| := abs_pos.mpr h0
      linarith
  · rw [if_neg h]
    constructor
    · intro hlt
      exact absurd hlt (not_lt.mpr (abs_nonneg amount))
    · rintro ⟨hh, -⟩
      exact absurd hh h

/- ### C3: the four summary totals -/

/-- C3: total income, total savings and net balance are the amount sums
over the income rows, the savings rows and the non-savings rows of the
filtered frame; total expenses is the negated expense-amount sum, which
is non-negative whenever expense rows carry non-positive amounts (the
sign invariant); on the empty frame all four totals are `0`. -/
theorem summary_totals_spec (l : List Transaction)
    (hsign : ∀ t ∈ l, t.ttype = "expense" → t.amount ≤ 0) :
    total_income l = sum_amounts (income_of l) ∧
    total_expenses l = -(sum_amounts (expenses_of l)) ∧
    total_savings l = sum_amounts (savings_of l) ∧
    current_balance l = sum_amounts (non_savings_of l) ∧
    0 ≤ total_expenses l ∧
    (total_income [] = 0 ∧ total_expenses [] = 0 ∧
      total_savings [] = 0 ∧ current_balance [] = 0) := by
  have hexp : sum_amounts (expenses_of l) ≤ 0 := by
    apply sum_amounts_nonpos
    intro t ht
    have := List.mem_filter.mp ht
    exact hsign t this.1 (by simpa using this.2)
  cases l with
  | nil =>
      refine ⟨rfl, ?_, rfl, rfl, ?_, rfl, rfl, rfl, rfl⟩ <;>
        simp [total_expenses, expenses_of, sum_amounts]
  | cons t ts =>
      refine ⟨rfl, rfl, rfl, rfl, ?_, rfl, rfl, rfl, rfl⟩
      rw [show total_expenses (t :: ts) = -(sum_amounts (expenses_of (t :: ts)))
          from rfl]
      linarith

/-- C3 (witness): on the three-transaction sample ledger the totals are
income 1000, expenses 50, savings 200, net balance 950, and the expense
total is non-negative. -/
theorem summary_totals_spec_witness :
    0 ≤ total_expenses demo ∧
    total_income demo = 1000 ∧ total_expenses demo = 50 ∧
    total_savings demo = 200 ∧ current_balance demo = 950 := by
  refine ⟨(summary_totals_spec demo (by with_unfolding_all decide)).2.2.2.2.1,
    ?_, ?_, ?_, ?_⟩ <;> with_unfolding_all decide

/- ### C8: the savings time series -/

/-- C8: the savings chart keeps exactly the savings rows; when there are
none it yields the explicit "no data" signal (`none`), and otherwise the
running prefix sums of the savings amounts after sorting by timestamp:
one `(timestamp, cumulative_saved)` point per savings row, timestamps
ascending, final value the sum of all savings amounts. -/
theorem savings_over_time_spec (l : List Transaction) :
    (plot_savings_over_time l = none ↔ savings_of l = []) ∧
    ∀ s, plot_savings_over_time l = some s →
      s = cumsum 0 (List.insertionSort txLE (savings_of l)) ∧
      s.length = (savings_of l).length ∧
      List.Sorted tsLE (s.map Prod.fst) ∧
      ∀ p, s.getLast? = some p → p.2 = sum_amounts (savings_of l) := by
  unfold plot_savings_over_time
  by_cases he : (savings_of l).isEmpty
  · rw [if_pos he]
    refine ⟨by simp [List.isEmpty_iff.mp he], ?_⟩
    intro s hs
    exact absurd hs (by simp)
  · rw [if_neg he]
    refine ⟨by simp [he, List.isEmpty_iff]; intro hnil; exact he (by simp [hnil]), ?_⟩
    intro s hs
    have hs' : s = cumsum 0 (List.insertionSort txLE (savings_of l)) :=
      (Option.some.injEq _ _ ▸ hs).symm
    subst hs'
    refine ⟨rfl, ?_, ?_, ?_⟩
    · rw [cumsum_length, List.length_insertionSort]
    · rw [cumsum_map_fst]
      exact List.Pairwise.map (R := txLE) (S := tsLE) (fun t => t.date)
        (fun a b h => h) (sorted_sort (savings_of l))
    · intro p hp
      have := cumsum_getLast 0 _ p hp
      rw [this, sum_amounts_perm (sort_perm (savings_of l))]
      ring

/-- C8 (witness): on the sample ledger the savings series is the single
point `(day 3, 200)` whose final value equals the savings sum. -/
theorem savings_over_time_spec_witness :
    ((⟨3, 1⟩, (200 : Rat)) : Timestamp × Rat).2 =
      sum_amounts (savings_of demo) := by
  have h := (savings_over_time_spec demo).2
    [(⟨3, 1⟩, 200)] (by with_unfolding_all decide)
  exact h.2.2.2 (⟨3, 1⟩, 200) rfl

/- ### C5: expense totals by category -/

/-- C5: the category chart keeps only expense rows (none present → the
"no data" signal); for every category occurring among the filtered
expenses the reported bar is the absolute value of the sum of that
category's expense amounts, and the `(category, total)` pairs are sorted
descending by total. -/
theorem expenses_by_category_spec (l : List Transaction) :
    (plot_expenses_by_category l = none ↔ expenses_of l = []) ∧
    ∀ out, plot_expenses_by_category l = some out →
      List.Sorted desc_le out ∧
      ∀ c, c ∈ (expenses_of l).map (fun t => t.category) →
        (c, |category_sum (expenses_of l) c|) ∈ out := by
  unfold plot_expenses_by_category
  by_cases he : (expenses_of l).isEmpty
  · rw [if_pos he]
    refine ⟨by simp [List.isEmpty_iff.mp he], ?_⟩
    intro out hout
    exact absurd hout (by simp)
  · rw [if_neg he]
    refine ⟨by simp [he, List.isEmpty_iff]; intro hnil; exact he (by simp [hnil]), ?_⟩
    intro out hout
    have hout' : out = List.insertionSort desc_le
        (((expenses_of l).map (fun t => t.category)).dedup.map
          (fun c => (c, |category_sum (expenses_of l) c|))) :=
      (Option.some.injEq _ _ ▸ hout).symm
    subst hout'
    refine ⟨List.sorted_insertionSort desc_le _, ?_⟩
    intro c hc
    rw [List.mem_insertionSort]
    exact List.mem_map_of_mem _ (List.mem_dedup.mpr hc)

/-- C5 (witness): on the two-category expense ledger the reported pairs
are `[(Food, 75), (Transportation, 10)]`, sorted descending, and Food's
bar is `|(-50) + (-25)| = 75`. -/
theorem expenses_by_category_spec_witness :
    ("Food", |category_sum (expenses_of demo_expenses) "Food"|) ∈
      [("Food", (75 : Rat)), ("Transportation", 10)] := by
  have h := (expenses_by_category_spec demo_expenses).2
    [("Food", 75), ("Transportation", 10)] (by with_unfolding_all decide)
  exact h.2 "Food" (by with_unfolding_all decide)

/- ### C6: loading durable storage -/

/-- C6: an absent or empty file loads to the empty sequence, and a file
with one valid row and one row with a non-numeric amount loads to exactly
that one valid transaction — but a row with a missing type is NOT
excluded: `df["type"].astype(str)` turns the missing value into the
literal string `"nan"` before `dropna(subset=["date", "amount", "type"])`
runs, so the row survives with type `"nan"` and the load of one valid row
plus one missing-type row has two transactions, against both the claim
and the evident intent of listing `"type"` in the `dropna` subset. -/
theorem load_initial_data_eval :
    load_initial_data none = [] ∧
    load_initial_data (some []) = [] ∧
    load_initial_data (some
      [⟨some ⟨1, 0⟩, "Paycheck", some "Work", some 1000, some "income"⟩,
       ⟨some ⟨2, 0⟩, "Groceries", some "Food", none, some "expense"⟩]) =
      [⟨⟨1, 0⟩, "Paycheck", "Work", 1000, "income"⟩] ∧
    (load_initial_data (some
      [⟨some ⟨1, 0⟩, "Paycheck", some "Work", some 1000, some "income"⟩,
       ⟨some ⟨2, 0⟩, "Mystery", some "Other", some 30, none⟩])).map
        (fun t => t.ttype) = ["income", "nan"] ∧
    (load_initial_data (some
      [⟨some ⟨1, 0⟩, "Paycheck", some "Work", some 1000, some "income"⟩,
       ⟨some ⟨2, 0⟩, "Mystery", some "Other", some 30, none⟩])).length = 2 := by
  with_unfolding_all decide

/- ### C7: savings-goal progress -/

/-- C7 (counterexample): the claim says the progress fraction always lies
in `[0, 1]`.  The code only clamps from above: a loadable ledger row with
type `savings` and a negative amount (the corrupted-row filter only
demands a numeric amount) gives `progress = min(-50/100, 1) = -1/2 < 0`. -/
theorem progress_below_zero :
    progress [⟨⟨1, 0⟩, "edited row", "Savings", -50, "savings"⟩] 100 < 0 := by
  with_unfolding_all decide

/-- C7 (amended): for every filtered transaction sequence and every
goal, progress is `0` when `goal ≤ 0` and
`min(total filtered savings / goal, 1.0)` otherwise, and it never
exceeds `1` — both unconditionally; it is non-negative (hence lies in
`[0, 1]`) provided the filtered savings total is non-negative, as the
normaliser guarantees for transactions it created but the loader does
not for hand-edited rows. -/
theorem progress_spec (l : List Transaction) (goal : Rat) :
    (goal ≤ 0 → progress l goal = 0) ∧
    (0 < goal → progress l goal = min (current_saved l / goal) 1) ∧
    progress l goal ≤ 1 ∧
    (0 ≤ current_saved l → 0 ≤ progress l goal) := by
  unfold progress
  by_cases hg : goal ≤ 0
  · rw [if_pos hg]
    exact ⟨fun _ => rfl, fun h => absurd hg (not_le.mpr h), zero_le_one,
      fun _ => le_refl 0⟩
  · rw [if_neg hg]
    push_neg at hg
    exact ⟨fun h => absurd h (not_le.mpr hg), fun _ => rfl, min_le_right _ _,
      fun hsaved => le_min (div_nonneg hsaved hg.le) zero_le_one⟩

/-- C7 (witness): the three clamp examples of the spec —
`progress(goal=0) = 0`, `progress(goal=100, saved=150) = 1`,
`progress(goal=200, saved=50) = 1/4` — and the `[0, 1]` bounds on the
sample ledger with goal 1000. -/
theorem progress_spec_witness :
    0 ≤ progress demo 1000 ∧ progress demo 1000 ≤ 1 ∧
    progress demo 0 = 0 ∧
    progress [⟨⟨1, 0⟩, "s", "Savings", 150, "savings"⟩] 100 = 1 ∧
    progress [⟨⟨1, 0⟩, "s", "Savings", 50, "savings"⟩] 200 = 1/4 := by
  have h := progress_spec demo 1000
  refine ⟨h.2.2.2 (by with_unfolding_all decide), h.2.2.1, ?_, ?_, ?_⟩ <;>
    with_unfolding_all decide

/- ### C9: appending a transaction -/

/-- C9: appending a transaction extends the in-memory sequence by exactly
that one normalised row at the end — the length grows by one, every
previously stored transaction is unchanged (the old sequence is a prefix
of the new one), the new row is the last element — and the durable file
is rewritten to equal the new in-memory sequence exactly. -/
theorem add_transaction_spec (s : AppState) (tx_day : Int) (now_sec : Nat)
    (desc category : String) (amount : Rat) (t_type : String) :
    (add_transaction_to_state s tx_day now_sec desc category amount
        t_type).transactions =
      s.transactions ++ [mk_transaction tx_day now_sec desc category amount t_type] ∧
    (add_transaction_to_state s tx_day now_sec desc category amount
        t_type).transactions.length = s.transactions.length + 1 ∧
    (add_transaction_to_state s tx_day now_sec desc category amount
        t_type).transactions.take s.transactions.length = s.transactions ∧
    (add_transaction_to_state s tx_day now_sec desc category amount
        t_type).transactions.getLast? =
      some (mk_transaction tx_day now_sec desc category amount t_type) ∧
    (add_transaction_to_state s tx_day now_sec desc category amount
        t_type).data_file =
      (add_transaction_to_state s tx_day now_sec desc category amount
        t_type).transactions := by
  refine ⟨rfl, ?_, ?_, ?_, rfl⟩
  · simp [add_transaction_to_state]
  · simp [add_transaction_to_state, List.take_left]
  · simp [add_transaction_to_state, List.getLast?_concat]

/- ### C10: net balance = income − expenses -/

/-- C10: whenever every filtered transaction's type is one of `income`,
`expense` or `savings`, the reported net balance equals the reported
total income minus the reported total expenses (the latter a positive
magnitude). -/
theorem net_balance_identity (l : List Transaction)
    (htypes : ∀ t ∈ l,
      t.ttype = "income" ∨ t.ttype = "expense" ∨ t.ttype = "savings") :
    current_balance l = total_income l - total_expenses l := by
  have key : ∀ m : List Transaction,
      (∀ t ∈ m, t.ttype = "income" ∨ t.ttype = "expense" ∨ t.ttype = "savings") →
      sum_amounts (non_savings_of m) =
        sum_amounts (income_of m) + sum_amounts (expenses_of m) := by
    intro m hm
    induction m with
    | nil => simp [non_savings_of, income_of, expenses_of, sum_amounts]
    | cons t ts ih =>
        have hts := ih (fun u hu => hm u (List.mem_cons_of_mem t hu))
        rw [income_of_cons, expenses_of_cons, non_savings_of_cons]
        rcases hm t (List.mem_cons_self t ts) with h1 | h1 | h1
        · rw [if_pos h1, if_neg (by rw [h1]; decide), if_neg (by rw [h1]; decide),
            sum_amounts_cons, sum_amounts_cons, hts]
          ring
        · rw [if_pos h1, if_neg (by rw [h1]; decide), if_neg (by rw [h1]; decide),
            sum_amounts_cons, sum_amounts_cons, hts]
          ring
        · rw [if_pos h1, if_neg (by rw [h1]; decide), if_neg (by rw [h1]; decide),
            hts]
  cases l with
  | nil =>
      show (0 : Rat) = 0 - 0
      ring
  | cons t ts =>
      have h := key (t :: ts) htypes
      rw [show current_balance (t :: ts) = sum_amounts (non_savings_of (t :: ts))
            from rfl,
          show total_income (t :: ts) = sum_amounts (income_of (t :: ts)) from rfl,
          show total_expenses (t :: ts) =
            -(sum_amounts (expenses_of (t :: ts))) from rfl, h]
      ring

/-- C10 (witness): on the sample ledger `950 = 1000 - 50`. -/
theorem net_balance_identity_witness :
    current_balance demo = total_income demo - total_expenses demo :=
  net_balance_identity demo (by with_unfolding_all decide)

end FinanceTracker
